import Mathlib

/-!
Shallow embedding of the KiBot `update_xml` preflight parity checker
(`kibot/pre_update_xml.py`): parsing of the schematic export document,
component reconciliation (`check_components`), net reconciliation
(`check_nets`), and the report/abort decision (`check_pcb_parity`).
Python dictionaries are modelled as association lists with last-write-wins
insertion; Python sets are modelled as duplicate-free lists with a
deterministic first-occurrence iteration order (mirroring the fixed
in-process iteration order of CPython sets); Python `None` is `Option.none`.
-/

namespace KiBot

/-- How Python string formatting renders a value that may be `None`:
`None` prints as the four letter string, a string prints as itself. -/
def optFormat : Option String → String
  | none => "None"
  | some s => s

/-- Exceptions that can escape the parity check: the configuration error
raised explicitly by the code, and an uncaught `TypeError` from
concatenating `None` with a string. -/
inductive PyError where
  | KiPlotConfigurationError (msg : String)
  | TypeErrorRaised
  deriving DecidableEq

/-- The two distinguished failure codes from `kibot.misc` used by this
preflight. Modelled from the spec: `misc.py` is not among the given
sources; the spec only requires two distinguished non-zero codes. -/
inductive FailCode where
  | MISSING_TOOL
  | NETLIST_DIFF
  deriving DecidableEq

/-- Modelled from the spec: numeric encoding of KiCad version 7.0.1 from
`kibot.misc` (not among the given sources); only its role as a threshold
for `GS.kicad_version_n` matters. -/
def KICAD_VERSION_7_0_1 : Nat := 7000001

/-- Modelled from the spec: the `W_PARITY` warning tag prefix from
`kibot.misc` (not among the given sources); its exact text is immaterial. -/
def W_PARITY : String := "W_PARITY tag "

/-- `Component = namedtuple("Component", "val fp props")` as built by the
export parser: `val`/`fp` are either element text (possibly Python `None`),
or the empty string when the sub-element is absent; `props` maps property
names to values, both read from attributes that may be absent. -/
structure Component where
  val : Option String
  fp : Option String
  props : List (Option String × Option String)
  deriving DecidableEq

/-- Board-side snapshot of one footprint as consumed from `pcbnew`
(`GetReference`, `GetFPIDAsString`, `GetValue`, `GetProperties`). -/
structure Module where
  ref : String
  fp : String
  val : String
  props : List (String × String)
  deriving DecidableEq

/-- One pad of a board net as consumed from the connectivity API
(`pad.GetParent().GetReference()`, `pad.GetNumber()`). -/
structure Pad where
  ref : String
  num : String
  deriving DecidableEq

/-- One board net as consumed from `GetNetInfo` and the connectivity API:
its netcode (`NetsByNetcode` key), name (`GetNetname`) and the pads
returned by `GetNetItems(code, PCB_PAD_T)`. -/
structure BoardNet where
  code : Nat
  name : String
  pads : List Pad
  deriving DecidableEq

/-- Board snapshot: the modules of `GS.get_modules()` and the nets of the
board, in iteration order; the reserved "no net" net is the one with
netcode 0 and `GetNetCount` counts every net including it. -/
structure Board where
  modules : List Module
  nets : List BoardNet
  deriving DecidableEq

/-- An `xml.etree.ElementTree` element: tag, attributes, text and children. -/
inductive XElem where
  | mk (tag : String) (attrs : List (String × String)) (text : Option String)
      (children : List XElem)

def XElem.tag : XElem → String
  | .mk t _ _ _ => t

def XElem.attrs : XElem → List (String × String)
  | .mk _ a _ _ => a

def XElem.text : XElem → Option String
  | .mk _ _ x _ => x

def XElem.children : XElem → List XElem
  | .mk _ _ _ cs => cs

/-- `elem.get(key)`: attribute lookup, `None` when absent. -/
def XElem.get (e : XElem) (k : String) : Option String :=
  List.lookup k e.attrs

/-- `elem.find(tag)`: first direct child with the given tag, `None` when
there is none. -/
def XElem.find (e : XElem) (tag : String) : Option XElem :=
  e.children.find? (fun c => c.tag = tag)

mutual

/-- `elem.iter(tag)`: the element itself (when its tag matches) followed by
all matching descendants, in document order. -/
def XElem.iter (tag : String) : XElem → List XElem
  | .mk t a x cs =>
      (if t = tag then [XElem.mk t a x cs] else []) ++ iterChildren tag cs

def iterChildren (tag : String) : List XElem → List XElem
  | [] => []
  | c :: cs => XElem.iter tag c ++ iterChildren tag cs

end

/-- Python dict assignment `d[k] = v`: an existing key keeps its position
and gets the new value, a new key is appended at the end. -/
def dinsert {α β : Type} [DecidableEq α] (k : α) (v : β) :
    List (α × β) → List (α × β)
  | [] => [(k, v)]
  | (k2, v2) :: t => if k2 = k then (k, v) :: t else (k2, v2) :: dinsert k v t

def pydedupAux {α : Type} [DecidableEq α] (seen : List α) : List α → List α
  | [] => []
  | a :: t => if a ∈ seen then pydedupAux seen t else a :: pydedupAux (a :: seen) t

/-- Python set construction from an iteration sequence, with the model's
deterministic first-occurrence iteration order. -/
def pydedup {α : Type} [DecidableEq α] (l : List α) : List α :=
  pydedupAux [] l

/-- Schematic component map: `comps[ref] = Component(...)` keyed by the
`ref` attribute (`None` when the attribute is absent). -/
abbrev CompDict := List (Option String × Component)

/-- Schematic net map: `net_nodes[name] = set of endpoint tokens`, keyed by
the `name` attribute (`None` when the attribute is absent). -/
abbrev NetDict := List (Option String × List String)

/-- Global state consumed by `check_pcb_parity`: KiCad generation flags and
version, the parsed export document (`none` when `ET.parse` raised), and
the board snapshot loaded by `load_board()`. -/
structure GS where
  ki5 : Bool
  ki7 : Bool
  kicad_version_n : Nat
  xml : Option XElem
  board : Board

/-- Effects of one `check_pcb_parity` run: lines sent to `logger.error`,
lines sent to `logger.warning`, and the `exit(...)` code when the run
terminates. -/
structure RunLog where
  errors : List String
  warnings : List String
  exitCode : Option FailCode
  deriving DecidableEq

/-! ## Message texts (lines 82-140 of the source) -/

def msgPcbOnly (r : String) : String :=
  r ++ " found in PCB, but not in schematic"

def msgFpMismatch (r pcb sch : String) : String :=
  r ++ " footprint mismatch (PCB: `" ++ pcb ++ "` vs schematic: `" ++ sch ++ "`)"

def msgValMismatch (r pcb sch : String) : String :=
  r ++ " value mismatch (PCB: `" ++ pcb ++ "` vs schematic: `" ++ sch ++ "`)"

def msgSchProp (r p : String) : String :=
  r ++ " schematic property `" ++ p ++ "` not in PCB"

def msgPropMismatch (r pcb sch : String) : String :=
  r ++ " property mismatch (PCB: `" ++ pcb ++ "` vs schematic: `" ++ sch ++ "`)"

def msgPcbProp (r p : String) : String :=
  r ++ " PCB property `" ++ p ++ "` not in schematic"

def msgSchOnly (k : Option String) : String :=
  optFormat k ++ " found in schematic, but not in PCB"

def msgNetNotInSch (n : String) : String :=
  "Net `" ++ n ++ "` not in schematic"

def msgExtra (n s : String) : String :=
  "Net `" ++ n ++ "` extra PCB connection/s: " ++ s

def msgMissing (n s : String) : String :=
  "Net `" ++ n ++ "` missing PCB connection/s: " ++ s

def msgCount (pcb sch : Int) : String :=
  "Net count mismatch (PCB " ++ toString pcb ++ " vs schematic " ++ toString sch ++ ")"

def msgNetNotInPcb (k : Option String) : String :=
  "Net `" ++ optFormat k ++ "` not in PCB"

/-! ## Component reconciler (`check_components`, lines 76-106) -/

/-- `pcb_props.get(p)` where `p` is a schematic property key that may be
Python `None`; the board map is keyed by plain strings, so `None` is
never found. -/
def propGet (k : Option String) (pp : List (String × String)) : Option String :=
  match k with
  | none => none
  | some s => List.lookup s pp

/-- Messages of the `for p, v in sch_data.props.items()` loop
(lines 94-101). -/
def propLoopMsgs (r : String) (sp : List (Option String × Option String))
    (pp : List (String × String)) : List String :=
  sp.flatMap fun pv =>
    match propGet pv.1 pp with
    | none => [msgSchProp r (optFormat pv.1)]
    | some vpcb => if pv.2 = some vpcb then [] else [msgPropMismatch r vpcb (optFormat pv.2)]

/-- The `found_props` set: schematic property keys whose board lookup
succeeded (lines 93-99), as the sub-list of keys it contains. -/
def foundProps (sp : List (Option String × Option String))
    (pp : List (String × String)) : List (Option String) :=
  (sp.map Prod.fst).filter (fun k => (propGet k pp).isSome)

/-- Messages of the `set(pcb_props.keys()).difference(found_props)` loop
(lines 103-104). -/
def missingPropMsgs (r : String) (sp : List (Option String × Option String))
    (pp : List (String × String)) : List String :=
  ((pydedup (pp.map Prod.fst)).filter
      (fun k => !((foundProps sp pp).contains (some k)))).map (fun k => msgPcbProp r k)

/-- Messages contributed by one board module in the main loop of
`check_components` (lines 78-104). -/
def compMsgs (comps : CompDict) (m : Module) : List String :=
  match List.lookup (some m.ref) comps with
  | none => [msgPcbOnly m.ref]
  | some sch =>
      (if sch.fp = some m.fp then [] else [msgFpMismatch m.ref m.fp (optFormat sch.fp)])
      ++ (if sch.val = some m.val then [] else [msgValMismatch m.ref m.val (optFormat sch.val)])
      ++ propLoopMsgs m.ref sch.props m.props
      ++ missingPropMsgs m.ref sch.props m.props

/-- `check_components` (lines 76-106): the per-module messages in board
iteration order, then one message per schematic reference never seen among
the board references (`set(comps.keys()).difference(found_comps)`). -/
def check_components (comps : CompDict) (modules : List Module) : List String :=
  (modules.flatMap (compMsgs comps)) ++
    ((pydedup (comps.map Prod.fst)).filter
        (fun k => !(modules.any (fun m => some m.ref == k)))).map msgSchOnly

/-! ## Net reconciler (`check_nets`, lines 108-140) -/

/-- `con.GetNetCount() - 1`: the board net count with the bogus net 0
removed (line 111), as a Python integer. -/
def pcbNetCount (b : Board) : Int :=
  (b.nets.length : Int) - 1

/-- The set comprehension of lines 129-130: endpoint tokens of the pads of
one board net. -/
def pcbNodeTokens (bn : BoardNet) : List String :=
  pydedup (bn.pads.map (fun p => p.ref ++ " pin " ++ p.num))

/-- Messages contributed by one board net in the
`for n in net_info.NetsByNetcode()` loop (lines 118-136); netcode 0 is
skipped before anything else. -/
def netMsgs (nn : NetDict) (bn : BoardNet) : List String :=
  if bn.code = 0 then []
  else
    match List.lookup (some bn.name) nn with
    | none => [msgNetNotInSch bn.name]
    | some sch_nodes =>
        let pcb_nodes := pcbNodeTokens bn
        let d1 := pcb_nodes.filter (fun x => !(sch_nodes.contains x))
        let d2 := sch_nodes.filter (fun x => !(pcb_nodes.contains x))
        (if d1.isEmpty then [] else [msgExtra bn.name (String.intercalate "," d1)])
          ++ (if d2.isEmpty then [] else [msgMissing bn.name (String.intercalate "," d2)])

/-- Membership in the `pcb_net_names` set (lines 117-127): board net names
of non-zero netcode whose schematic lookup succeeded. -/
def inPcbNetNames (nn : NetDict) (b : Board) (k : Option String) : Bool :=
  match k with
  | none => false
  | some s =>
      b.nets.any (fun bn => bn.code != 0 && bn.name == s
        && (List.lookup (some bn.name) nn).isSome)

/-- `check_nets` (lines 108-140): the count-mismatch message, then the
per-net messages in board iteration order, then one message per schematic
net name never matched by a board net. -/
def check_nets (nn : NetDict) (b : Board) : List String :=
  (if pcbNetCount b = (nn.length : Int) then []
   else [msgCount (pcbNetCount b) (nn.length : Int)])
  ++ b.nets.flatMap (netMsgs nn)
  ++ ((nn.map Prod.fst).filter (fun k => !(inPcbNetNames nn b k))).map msgNetNotInPcb

/-! ## Export document parsing (`check_pcb_parity`, lines 150-178) -/

/-- One component record (lines 163-171): `ref` attribute, `value` and
`footprint` child text defaulting to the empty string when the child is
absent, and the property dict comprehension. -/
def compOf (c : XElem) : Option String × Component :=
  (c.get "ref",
   { val := match c.find "value" with
            | none => some ""
            | some e => e.text
     fp := match c.find "footprint" with
           | none => some ""
           | some e => e.text
     props := (XElem.iter "property" c).foldl
                (fun acc p => dinsert (p.get "name") (p.get "value") acc) [] })

/-- The `components` section loop (lines 160-171): absent section means an
empty map. -/
def buildComps (sec : Option XElem) : CompDict :=
  match sec with
  | none => []
  | some s => (XElem.iter "comp" s).foldl
      (fun acc c => dinsert (compOf c).1 (compOf c).2 acc) []

/-- `node.get('ref') + ' pin ' + node.get('pin')` (line 178): concatenating
`None` with a string raises a `TypeError`. -/
def nodeToken (e : XElem) : Except PyError String :=
  match e.get "ref", e.get "pin" with
  | some r, some p => .ok (r ++ " pin " ++ p)
  | _, _ => .error .TypeErrorRaised

/-- Tokens of all `node` elements of one net, first raised error wins. -/
def netTokens : List XElem → Except PyError (List String)
  | [] => .ok []
  | n :: t =>
      match nodeToken n with
      | .error e => .error e
      | .ok x =>
          match netTokens t with
          | .error e => .error e
          | .ok xs => .ok (x :: xs)

/-- The `nets` section loop (lines 174-178), building `net_nodes`. -/
def buildNetsFrom (acc : NetDict) : List XElem → Except PyError NetDict
  | [] => .ok acc
  | n :: t =>
      match netTokens (XElem.iter "node" n) with
      | .error e => .error e
      | .ok toks => buildNetsFrom (dinsert (n.get "name") (pydedup toks) acc) t

/-- Lines 172-178: `net_nodes = {}` stays empty when the `nets` section is
absent, otherwise the net loop runs. -/
def buildNets (sec : Option XElem) : Except PyError NetDict :=
  match sec with
  | none => .ok []
  | some s => buildNetsFrom [] (XElem.iter "net" s)

/-- Lines 150-178 of `check_pcb_parity`: parse failure and a wrong root tag
raise `KiPlotConfigurationError`; otherwise the component and net maps are
built, where a `node` without `ref` or `pin` raises an uncaught
`TypeError`. -/
def parse_netlist (xml : Option XElem) : Except PyError (CompDict × NetDict) :=
  match xml with
  | none => .error (.KiPlotConfigurationError "Errors parsing the netlist file")
  | some root =>
      if root.tag = "export" then
        match buildNets (root.find "nets") with
        | .error e => .error e
        | .ok nets => .ok (buildComps (root.find "components"), nets)
      else .error (.KiPlotConfigurationError "the file is not a valid netlist")

/-! ## Top level (`check_pcb_parity`, lines 142-194) -/

/-- The full reconciliation: component check followed by net check,
appending to the same `errors` list (lines 180-185). -/
def reconcile (comps : CompDict) (nn : NetDict) (b : Board) : List String :=
  check_components comps b.modules ++ check_nets nn b

/-- The report step (lines 187-194): nothing on an empty list; warnings
tagged with `W_PARITY` and no abort under `as_warnings`; otherwise error
lines and `exit(NETLIST_DIFF)`. -/
def report (errors : List String) (as_warnings : Bool) : RunLog :=
  if errors.isEmpty then { errors := [], warnings := [], exitCode := none }
  else if as_warnings then
    { errors := [], warnings := errors.map (fun e => W_PARITY ++ e), exitCode := none }
  else { errors := errors, warnings := [], exitCode := some .NETLIST_DIFF }

/-- `check_pcb_parity` (lines 142-194): KiCad 5 and broken KiCad 7.0.0
exit with `MISSING_TOOL` before anything is parsed; then the export is
parsed, the reconciliation runs, and the report step decides the outcome. -/
def check_pcb_parity (gs : GS) (as_warnings : Bool) : Except PyError RunLog :=
  if gs.ki5 then
    .ok { errors := ["PCB vs schematic parity only available for KiCad 6"],
          warnings := [], exitCode := some .MISSING_TOOL }
  else if gs.ki7 = true ∧ gs.kicad_version_n < KICAD_VERSION_7_0_1 then
    .ok { errors := ["Connectivity API is broken on KiCad 7.0.0"],
          warnings := [], exitCode := some .MISSING_TOOL }
  else
    match parse_netlist gs.xml with
    | .error e => .error e
    | .ok (comps, nets) =>
        .ok (report (reconcile comps nets gs.board) as_warnings)


/-! ## Example inputs used by the witnesses -/

/-- A well-formed export document whose only net has a `node` without a
`ref` attribute. -/
def badDocEx : XElem :=
  .mk "export" [] none
    [ .mk "nets" [] none
        [ .mk "net" [("name", "N1"), ("code", "1")] none
            [ .mk "node" [("pin", "1")] none [] ] ] ]

def emptyBoardEx : Board := ⟨[], []⟩

/-- Global state that reaches the net-building loop of `badDocEx`. -/
def gsBadEx : GS := ⟨false, false, 0, some badDocEx, emptyBoardEx⟩

/-- Global state whose export document could not be parsed. -/
def gsParseFailEx : GS := ⟨false, false, 7000100, none, emptyBoardEx⟩

/-- Global state on KiCad 5. -/
def gsKi5Ex : GS := ⟨true, false, 5000000, none, emptyBoardEx⟩

def compEx : Component := ⟨some "10k", some "R_0603", [(some "P", some "1")]⟩

def compsEx : CompDict := [(some "R1", compEx), (some "R9", compEx)]

def modR1Ex : Module := ⟨"R1", "R_0603", "10k", [("P", "1")]⟩

def modC5Ex : Module := ⟨"C5", "C_0402", "1n", []⟩

def modR1MismEx : Module := ⟨"R1", "R_0603", "10k", [("P", "2"), ("Q", "z")]⟩

def schNodesEx : List String := ["R1 pin 1", "C1 pin 2"]

def nnGndEx : NetDict := [(some "GND", schNodesEx)]

def bnGndEx : BoardNet := ⟨1, "GND", [⟨"R1", "1"⟩, ⟨"X", "3"⟩]⟩

def nnVccEx : NetDict := [(some "VCC", ["R1 pin 2"])]

def bnVccEx : BoardNet := ⟨2, "VCC", [⟨"R1", "2"⟩]⟩

def netZeroEx : BoardNet := ⟨0, "", []⟩

def boardNetsEx : Board := ⟨[], [netZeroEx, bnGndEx, bnVccEx]⟩

/-- A `comp` element with neither `value` nor `footprint` child. -/
def bareCompEx : XElem := .mk "comp" [("ref", "R7")] none []

/-- An export document with no `components` and no `nets` section. -/
def bareExportEx : XElem := .mk "export" [("version", "E")] none []

/-- An export document with a `components` section but no `nets` section. -/
def compsOnlyEx : XElem :=
  .mk "export" [] none [ .mk "components" [] none [bareCompEx] ]

/-- An export document with a `nets` section but no `components` section. -/
def netsOnlyEx : XElem :=
  .mk "export" [] none
    [ .mk "nets" [] none
        [ .mk "net" [("name", "N1")] none
            [ .mk "node" [("ref", "R1"), ("pin", "1")] none [] ] ] ]

/-! ## Helper lemmas -/

theorem list_prefix_ne (p q xs ys : List Char) (n : Nat)
    (hp : n ≤ p.length) (hq : n ≤ q.length) (h : p.take n ≠ q.take n) :
    p ++ xs ≠ q ++ ys := by
  intro e
  apply h
  have e2 := congrArg (List.take n) e
  rwa [List.take_append_of_le_length hp, List.take_append_of_le_length hq] at e2

theorem list_suffix_ne (p q xs ys : List Char) (n : Nat)
    (hp : n ≤ p.length) (hq : n ≤ q.length)
    (h : p.reverse.take n ≠ q.reverse.take n) :
    xs ++ p ≠ ys ++ q := by
  intro e
  have e2 : p.reverse ++ xs.reverse = q.reverse ++ ys.reverse := by
    simpa [List.reverse_append] using congrArg List.reverse e
  exact list_prefix_ne _ _ _ _ n (by simpa using hp) (by simpa using hq) h e2

theorem str_suffix_ne (p q : String) (n : Nat)
    (hp : n ≤ p.data.length) (hq : n ≤ q.data.length)
    (h : p.data.reverse.take n ≠ q.data.reverse.take n) (a b : String) :
    a ++ p ≠ b ++ q := by
  intro e
  exact list_suffix_ne p.data q.data a.data b.data n hp hq h
    (by simpa [String.data_append] using congrArg String.data e)

theorem str_right_cancel {x y a : String} (h : x ++ a = y ++ a) : x = y := by
  apply String.ext
  have h2 := congrArg String.data h
  simpa [String.data_append] using h2

theorem mem_pydedupAux {α : Type} [DecidableEq α] {a : α} :
    ∀ (l seen : List α), a ∈ pydedupAux seen l ↔ a ∈ l ∧ a ∉ seen
  | [], seen => by simp [pydedupAux]
  | b :: t, seen => by
    simp only [pydedupAux]
    by_cases hb : b ∈ seen
    · rw [if_pos hb, mem_pydedupAux t seen]
      constructor
      · rintro ⟨h1, h2⟩
        exact ⟨List.mem_cons_of_mem _ h1, h2⟩
      · rintro ⟨h1, h2⟩
        rcases List.mem_cons.mp h1 with h | h
        · exact absurd (by rwa [h]) h2
        · exact ⟨h, h2⟩
    · rw [if_neg hb]
      constructor
      · intro h
        rcases List.mem_cons.mp h with h | h
        · rw [h]
          exact ⟨List.mem_cons_self _ _, hb⟩
        · rcases (mem_pydedupAux t (b :: seen)).mp h with ⟨h1, h2⟩
          exact ⟨List.mem_cons_of_mem _ h1, fun hs => h2 (List.mem_cons_of_mem _ hs)⟩
      · rintro ⟨h1, h2⟩
        by_cases hab : a = b
        · rw [hab]
          exact List.mem_cons_self _ _
        · rcases List.mem_cons.mp h1 with h | h
          · exact absurd h hab
          · exact List.mem_cons_of_mem _
              ((mem_pydedupAux t (b :: seen)).mpr
                ⟨h, fun hs => (List.mem_cons.mp hs).elim hab h2⟩)

theorem mem_pydedup {α : Type} [DecidableEq α] {a : α} {l : List α} :
    a ∈ pydedup l ↔ a ∈ l := by
  simp [pydedup, mem_pydedupAux]

theorem nodup_pydedupAux {α : Type} [DecidableEq α] :
    ∀ (l seen : List α), (pydedupAux seen l).Nodup
  | [], _ => by simp [pydedupAux]
  | b :: t, seen => by
    simp only [pydedupAux]
    by_cases hb : b ∈ seen
    · rw [if_pos hb]
      exact nodup_pydedupAux t seen
    · rw [if_neg hb]
      refine List.nodup_cons.mpr ⟨?_, nodup_pydedupAux t (b :: seen)⟩
      intro hmem
      rcases (mem_pydedupAux t (b :: seen)).mp hmem with ⟨-, h2⟩
      exact h2 (List.mem_cons_self _ _)

theorem nodup_pydedup {α : Type} [DecidableEq α] (l : List α) : (pydedup l).Nodup :=
  nodup_pydedupAux l []

theorem count_map_eq_one {α β : Type} [BEq β] [LawfulBEq β] {f : α → β} {a : α} :
    ∀ (l : List α), l.Nodup → a ∈ l → (∀ x ∈ l, f x = f a → x = a) →
      (l.map f).count (f a) = 1
  | [], _, hmem, _ => absurd hmem (List.not_mem_nil a)
  | b :: t, hnd, hmem, hinj => by
    rcases List.nodup_cons.mp hnd with ⟨hbt, hndt⟩
    rw [List.map_cons, List.count_cons]
    rcases List.mem_cons.mp hmem with hab | hat
    · have hz : (t.map f).count (f a) = 0 := by
        rw [List.count_eq_zero]
        intro hmem2
        rcases List.mem_map.mp hmem2 with ⟨x, hx, hfx⟩
        have hxa : x = a := hinj x (List.mem_cons_of_mem _ hx) hfx
        rw [hxa] at hx
        rw [hab] at hx
        exact hbt hx
      rw [hab] at hz ⊢
      simp [hz]
    · have hba : (f b == f a) = false := by
        rw [beq_eq_false_iff_ne]
        intro hfe
        have hb2 : b = a := hinj b (List.mem_cons_self _ _) hfe
        rw [hb2] at hbt
        exact hbt hat
      rw [hba]
      simpa using count_map_eq_one t hndt hat
        (fun x hx hfx => hinj x (List.mem_cons_of_mem _ hx) hfx)


theorem mem_ite_nil {α : Type} {c : Prop} [Decidable c] {x y : α}
    (h : x ∈ (if c then ([] : List α) else [y])) : x = y := by
  by_cases hc : c
  · rw [if_pos hc] at h
    exact absurd h (List.not_mem_nil x)
  · rw [if_neg hc] at h
    simpa using h

theorem msgSchOnly_some (r : String) :
    msgSchOnly (some r) = r ++ " found in schematic, but not in PCB" := rfl

theorem msgSchOnly_some_inj {s r : String}
    (h : msgSchOnly (some s) = msgSchOnly (some r)) : s = r :=
  str_right_cancel (by simpa [msgSchOnly_some] using h)

theorem msgNetNotInSch_eq (n : String) :
    msgNetNotInSch n = "Net `" ++ (n ++ "` not in schematic") := by
  simp [msgNetNotInSch, String.append_assoc]

theorem msgExtra_eq (n s : String) :
    msgExtra n s = "Net `" ++ (n ++ ("` extra PCB connection/s: " ++ s)) := by
  simp [msgExtra, String.append_assoc]

theorem msgMissing_eq (n s : String) :
    msgMissing n s = "Net `" ++ (n ++ ("` missing PCB connection/s: " ++ s)) := by
  simp [msgMissing, String.append_assoc]

theorem msgNetNotInPcb_eq (k : Option String) :
    msgNetNotInPcb k = "Net `" ++ (optFormat k ++ "` not in PCB") := by
  simp [msgNetNotInPcb, String.append_assoc]

theorem msgCount_ne_net (p s : Int) (t : String) : msgCount p s ≠ "Net `" ++ t := by
  intro h
  have h2 := congrArg String.data h
  simp only [msgCount, String.data_append, List.append_assoc] at h2
  exact absurd h2 (list_prefix_ne _ _ _ _ 5 (by decide) (by decide) (by decide))

theorem msgExtra_ne_msgMissing {n s s2 : String} : msgExtra n s ≠ msgMissing n s2 := by
  intro h
  have h2 := congrArg String.data h
  simp only [msgExtra, msgMissing, String.data_append, List.append_assoc] at h2
  have h3 := List.append_cancel_left h2
  have h4 := List.append_cancel_left h3
  exact absurd h4 (list_prefix_ne _ _ _ _ 3 (by decide) (by decide) (by decide))

theorem msgSchProp_inj {r p q : String} (h : msgSchProp r p = msgSchProp r q) :
    p = q := by
  have h2 := congrArg String.data h
  simp only [msgSchProp, String.data_append, List.append_assoc] at h2
  have h3 := List.append_cancel_left h2
  have h4 := List.append_cancel_left h3
  exact String.ext (List.append_cancel_right h4)

theorem msgPcbProp_inj {r p q : String} (h : msgPcbProp r p = msgPcbProp r q) :
    p = q := by
  have h2 := congrArg String.data h
  simp only [msgPcbProp, String.data_append, List.append_assoc] at h2
  have h3 := List.append_cancel_left h2
  have h4 := List.append_cancel_left h3
  exact String.ext (List.append_cancel_right h4)

theorem ne_schProp_pcbProp (r p r2 q : String) :
    msgSchProp r p ≠ msgPcbProp r2 q :=
  str_suffix_ne "` not in PCB" "` not in schematic" 1
    (by decide) (by decide) (by decide) _ _

theorem ne_mismatch_pcbProp (r x y r2 q : String) :
    msgPropMismatch r x y ≠ msgPcbProp r2 q :=
  str_suffix_ne "`)" "` not in schematic" 1 (by decide) (by decide) (by decide) _ _

theorem ne_mismatch_schProp (r x y r2 q : String) :
    msgPropMismatch r x y ≠ msgSchProp r2 q :=
  str_suffix_ne "`)" "` not in PCB" 1 (by decide) (by decide) (by decide) _ _

theorem ne_fpMismatch_pcbProp (r x y r2 q : String) :
    msgFpMismatch r x y ≠ msgPcbProp r2 q :=
  str_suffix_ne "`)" "` not in schematic" 1 (by decide) (by decide) (by decide) _ _

theorem ne_fpMismatch_schProp (r x y r2 q : String) :
    msgFpMismatch r x y ≠ msgSchProp r2 q :=
  str_suffix_ne "`)" "` not in PCB" 1 (by decide) (by decide) (by decide) _ _

theorem ne_valMismatch_pcbProp (r x y r2 q : String) :
    msgValMismatch r x y ≠ msgPcbProp r2 q :=
  str_suffix_ne "`)" "` not in schematic" 1 (by decide) (by decide) (by decide) _ _

theorem ne_valMismatch_schProp (r x y r2 q : String) :
    msgValMismatch r x y ≠ msgSchProp r2 q :=
  str_suffix_ne "`)" "` not in PCB" 1 (by decide) (by decide) (by decide) _ _

theorem compMsgs_ne_schOnly {comps : CompDict} {m : Module} {x : String}
    (hx : x ∈ compMsgs comps m) (r : String) : x ≠ msgSchOnly (some r) := by
  rw [msgSchOnly_some]
  unfold compMsgs at hx
  cases hl : List.lookup (some m.ref) comps with
  | none =>
    simp only [hl] at hx
    simp at hx
    subst hx
    exact str_suffix_ne " found in PCB, but not in schematic"
      " found in schematic, but not in PCB" 1 (by decide) (by decide) (by decide) _ r
  | some sch =>
    simp only [hl] at hx
    rcases List.mem_append.mp hx with hx1 | hmiss
    · rcases List.mem_append.mp hx1 with hx2 | hprop
      · rcases List.mem_append.mp hx2 with hfp | hval
        · have hfe := mem_ite_nil hfp
          subst hfe
          exact str_suffix_ne "`)" " found in schematic, but not in PCB" 1
            (by decide) (by decide) (by decide) _ r
        · have hve := mem_ite_nil hval
          subst hve
          exact str_suffix_ne "`)" " found in schematic, but not in PCB" 1
            (by decide) (by decide) (by decide) _ r
      · unfold propLoopMsgs at hprop
        rcases List.mem_flatMap.mp hprop with ⟨pv, hpv, hxm⟩
        cases hpg : propGet pv.1 m.props with
        | none =>
          simp only [hpg] at hxm
          simp at hxm
          subst hxm
          exact str_suffix_ne "` not in PCB" " found in schematic, but not in PCB" 12
            (by decide) (by decide) (by decide) _ r
        | some vpcb =>
          simp only [hpg] at hxm
          have hme := mem_ite_nil hxm
          subst hme
          exact str_suffix_ne "`)" " found in schematic, but not in PCB" 1
            (by decide) (by decide) (by decide) _ r
    · unfold missingPropMsgs at hmiss
      rcases List.mem_map.mp hmiss with ⟨k, hk, hke⟩
      subst hke
      exact str_suffix_ne "` not in schematic" " found in schematic, but not in PCB" 1
        (by decide) (by decide) (by decide) _ r

theorem netMsgs_shape {nn : NetDict} {bn : BoardNet} {x : String}
    (hx : x ∈ netMsgs nn bn) : ∃ s, x = "Net `" ++ s := by
  unfold netMsgs at hx
  by_cases h0 : bn.code = 0
  · simp [h0] at hx
  · simp only [if_neg h0] at hx
    cases hl : List.lookup (some bn.name) nn with
    | none =>
      simp only [hl] at hx
      simp at hx
      subst hx
      exact ⟨_, msgNetNotInSch_eq bn.name⟩
    | some S =>
      simp only [hl] at hx
      rcases List.mem_append.mp hx with h1 | h2
      · have he := mem_ite_nil h1
        subst he
        exact ⟨_, msgExtra_eq bn.name _⟩
      · have he := mem_ite_nil h2
        subst he
        exact ⟨_, msgMissing_eq bn.name _⟩


/-! ## Claim theorems -/

/-- C3: aggregation of the collected discrepancy list (lines 187-194): an
empty list passes silently (no warnings, no errors, no termination); a
non-empty list under `as_warnings` surfaces every message as a warning and
never aborts; a non-empty list without `as_warnings` surfaces every message
as an error and terminates with `NETLIST_DIFF`. -/
theorem c3_report_aggregation (es : List String) (w : Bool) :
    report [] w = ⟨[], [], none⟩
    ∧ (es ≠ [] →
        (report es true).warnings = es.map (fun e => W_PARITY ++ e)
        ∧ (report es true).errors = [] ∧ (report es true).exitCode = none)
    ∧ (es ≠ [] → report es false = ⟨es, [], some FailCode.NETLIST_DIFF⟩) := by
  refine ⟨rfl, ?_, ?_⟩
  · intro h
    simp [report, h]
  · intro h
    simp [report, h]

theorem c3_witness :
    report [] true = ⟨[], [], none⟩
    ∧ (report ["R1 value mismatch"] true).warnings
        = ["R1 value mismatch"].map (fun e => W_PARITY ++ e)
    ∧ (report ["R1 value mismatch"] true).errors = []
    ∧ (report ["R1 value mismatch"] true).exitCode = none
    ∧ report ["R1 value mismatch"] false
        = ⟨["R1 value mismatch"], [], some FailCode.NETLIST_DIFF⟩ := by
  obtain ⟨h1, h2, h3⟩ := c3_report_aggregation ["R1 value mismatch"] true
  obtain ⟨h2a, h2b, h2c⟩ := h2 (by simp)
  exact ⟨h1, h2a, h2b, h2c, h3 (by simp)⟩

/-- C5: with the version preconditions satisfied, an unparseable export
document or a root tag other than `export` makes `check_pcb_parity` fail
with `KiPlotConfigurationError`, and the outcome does not depend on the
board snapshot: reconciliation never starts and no partial data is used. -/
theorem c5_format_error_aborts (gs : GS) (w : Bool)
    (h5 : gs.ki5 = false)
    (h7 : ¬(gs.ki7 = true ∧ gs.kicad_version_n < KICAD_VERSION_7_0_1))
    (hbad : gs.xml = none ∨ ∃ root, gs.xml = some root ∧ root.tag ≠ "export") :
    (∃ msg, check_pcb_parity gs w = .error (.KiPlotConfigurationError msg))
    ∧ ∀ b2 : Board,
        check_pcb_parity { gs with board := b2 } w = check_pcb_parity gs w := by
  have hp : ∃ msg, parse_netlist gs.xml = .error (.KiPlotConfigurationError msg) := by
    rcases hbad with h | ⟨root, hr, ht⟩
    · refine ⟨"Errors parsing the netlist file", ?_⟩
      rw [h]
      rfl
    · refine ⟨"the file is not a valid netlist", ?_⟩
      rw [hr]
      simp [parse_netlist, ht]
  obtain ⟨msg, hpm⟩ := hp
  constructor
  · refine ⟨msg, ?_⟩
    simp [check_pcb_parity, h5, h7, hpm]
  · intro b2
    simp [check_pcb_parity, h5, h7, hpm]

theorem c5_witness :
    (∃ msg, check_pcb_parity gsParseFailEx false
        = .error (.KiPlotConfigurationError msg))
    ∧ check_pcb_parity { gsParseFailEx with board := boardNetsEx } false
        = check_pcb_parity gsParseFailEx false := by
  obtain ⟨h1, h2⟩ := c5_format_error_aborts gsParseFailEx false rfl
    (by simp [gsParseFailEx]) (Or.inl rfl)
  exact ⟨h1, h2 boardNetsEx⟩

/-- C6: on KiCad 5, or on a KiCad 7 older than 7.0.1, `check_pcb_parity`
terminates with `MISSING_TOOL` regardless of `as_warnings`, and the outcome
depends neither on the export document nor on the board: the precondition
check happens before parsing, so no reconciliation is attempted. -/
theorem c6_precondition_fatal (gs : GS) (w : Bool)
    (h : gs.ki5 = true ∨ (gs.ki7 = true ∧ gs.kicad_version_n < KICAD_VERSION_7_0_1)) :
    (∃ msg, check_pcb_parity gs w = .ok ⟨[msg], [], some FailCode.MISSING_TOOL⟩)
    ∧ ∀ (x2 : Option XElem) (b2 : Board) (w2 : Bool),
        check_pcb_parity { gs with xml := x2, board := b2 } w2
          = check_pcb_parity gs w := by
  by_cases h5 : gs.ki5 = true
  · constructor
    · exact ⟨"PCB vs schematic parity only available for KiCad 6",
        by simp [check_pcb_parity, h5]⟩
    · intro x2 b2 w2
      simp [check_pcb_parity, h5]
  · have h7 : gs.ki7 = true ∧ gs.kicad_version_n < KICAD_VERSION_7_0_1 :=
      h.resolve_left h5
    constructor
    · exact ⟨"Connectivity API is broken on KiCad 7.0.0",
        by simp [check_pcb_parity, h5, h7]⟩
    · intro x2 b2 w2
      simp [check_pcb_parity, h5, h7]

theorem c6_witness :
    (∃ msg, check_pcb_parity gsKi5Ex true
        = .ok ⟨[msg], [], some FailCode.MISSING_TOOL⟩)
    ∧ check_pcb_parity { gsKi5Ex with xml := some badDocEx, board := boardNetsEx }
        false = check_pcb_parity gsKi5Ex true := by
  obtain ⟨h1, h2⟩ := c6_precondition_fatal gsKi5Ex true (Or.inl rfl)
  exact ⟨h1, h2 (some badDocEx) boardNetsEx false⟩

/-- C7: the full reconciliation (component check followed by net check) is
a pure function of the schematic maps and the board snapshot, so running it
twice on identical inputs yields identical ordered message sequences; the
model renders the per-run-deterministic iteration order of the source's
containers as a fixed deterministic order. -/
theorem c7_reconcile_deterministic (cA cB : CompDict) (nA nB : NetDict)
    (bA bB : Board) (hc : cA = cB) (hn : nA = nB) (hb : bA = bB) :
    reconcile cA nA bA = reconcile cB nB bB := by
  rw [hc, hn, hb]

theorem c7_witness :
    reconcile compsEx nnGndEx boardNetsEx = reconcile compsEx nnGndEx boardNetsEx :=
  c7_reconcile_deterministic compsEx compsEx nnGndEx nnGndEx boardNetsEx boardNetsEx
    rfl rfl rfl

/-- C8: parser leniency (lines 160-178): a `comp` without a `value` child
yields the empty string for that field rather than an error, and likewise
for a missing `footprint` child; an export document without a `nets`
section parses with an empty net map and no error, whatever its
`components` section holds; and an export document without a `components`
section yields an empty component map in any successful parse. -/
theorem c8_parser_lenient :
    (∀ c : XElem, c.find "value" = none → (compOf c).2.val = some "")
    ∧ (∀ c : XElem, c.find "footprint" = none → (compOf c).2.fp = some "")
    ∧ (∀ root : XElem, root.tag = "export" → root.find "nets" = none →
        parse_netlist (some root) = .ok (buildComps (root.find "components"), []))
    ∧ (∀ root : XElem, root.find "components" = none →
        ∀ (cs : CompDict) (ns : NetDict),
          parse_netlist (some root) = .ok (cs, ns) → cs = []) := by
  refine ⟨?_, ?_, ?_, ?_⟩
  · intro c h
    simp [compOf, h]
  · intro c h
    simp [compOf, h]
  · intro root ht hn
    simp [parse_netlist, ht, buildNets, hn]
  · intro root hc cs ns h
    simp only [parse_netlist] at h
    by_cases ht : root.tag = "export"
    · rw [if_pos ht] at h
      cases hnr : buildNets (root.find "nets") with
      | error e =>
        rw [hnr] at h
        simp at h
      | ok ns2 =>
        rw [hnr] at h
        simp only [Except.ok.injEq, Prod.mk.injEq] at h
        rw [← h.1, hc]
        rfl
    · rw [if_neg ht] at h
      simp at h

theorem c8_witness :
    (compOf bareCompEx).2.val = some ""
    ∧ (compOf bareCompEx).2.fp = some ""
    ∧ parse_netlist (some compsOnlyEx)
        = .ok (buildComps (compsOnlyEx.find "components"), [])
    ∧ ([] : CompDict) = [] := by
  obtain ⟨h1, h2, h3, h4⟩ := c8_parser_lenient
  exact ⟨h1 bareCompEx rfl, h2 bareCompEx rfl, h3 compsOnlyEx rfl rfl,
    h4 netsOnlyEx rfl [] [(some "N1", ["R1 pin 1"])] rfl⟩

/-- C10: the parser is not total over well-formed export documents: for a
document whose root tag is `export` but whose net contains a `node` without
a `ref` attribute, building the endpoint token raises a `TypeError` that is
not caught and not converted to the configuration-error class, because the
exception handler guards only the parse call and the root-tag check. -/
theorem c10_node_without_ref_raises :
    badDocEx.tag = "export"
    ∧ parse_netlist (some badDocEx) = .error PyError.TypeErrorRaised
    ∧ check_pcb_parity gsBadEx false = .error PyError.TypeErrorRaised
    ∧ ¬∃ msg, parse_netlist (some badDocEx)
        = .error (PyError.KiPlotConfigurationError msg) := by
  refine ⟨rfl, rfl, rfl, ?_⟩
  rintro ⟨msg, h⟩
  rw [show parse_netlist (some badDocEx) = .error PyError.TypeErrorRaised from rfl] at h
  simp at h


theorem length_filter_split {α : Type} (p : α → Bool) :
    ∀ l : List α, (l.filter p).length + (l.filter (fun a => !(p a))).length = l.length
  | [] => rfl
  | a :: t => by
    have ih := length_filter_split p t
    cases hp : p a
    · simp [List.filter_cons, hp]
      omega
    · simp [List.filter_cons, hp]
      omega

/-- C2: for a board net whose name is present in the schematic map, a
non-empty board-minus-schematic endpoint difference produces exactly one
"extra PCB connection/s" message listing the offending tokens joined by
commas, a non-empty schematic-minus-board difference produces exactly one
"missing PCB connection/s" message likewise, and equal endpoint sets
produce no message for that net. -/
theorem c2_net_endpoint_differences (nn : NetDict) (bn : BoardNet)
    (S : List String) (h0 : ¬ bn.code = 0)
    (hl : List.lookup (some bn.name) nn = some S) :
    (¬ (pcbNodeTokens bn).filter (fun x => !(S.contains x)) = [] →
      (netMsgs nn bn).count
        (msgExtra bn.name (String.intercalate ","
          ((pcbNodeTokens bn).filter (fun x => !(S.contains x))))) = 1)
    ∧ (¬ S.filter (fun x => !((pcbNodeTokens bn).contains x)) = [] →
      (netMsgs nn bn).count
        (msgMissing bn.name (String.intercalate ","
          (S.filter (fun x => !((pcbNodeTokens bn).contains x))))) = 1)
    ∧ ((∀ x, x ∈ pcbNodeTokens bn ↔ x ∈ S) → netMsgs nn bn = []) := by
  have hm : netMsgs nn bn =
      (if ((pcbNodeTokens bn).filter (fun x => !(S.contains x))).isEmpty then []
       else [msgExtra bn.name (String.intercalate ","
              ((pcbNodeTokens bn).filter (fun x => !(S.contains x))))])
      ++ (if (S.filter (fun x => !((pcbNodeTokens bn).contains x))).isEmpty then []
          else [msgMissing bn.name (String.intercalate ","
                 (S.filter (fun x => !((pcbNodeTokens bn).contains x))))]) := by
    simp [netMsgs, h0, hl]
  refine ⟨?_, ?_, ?_⟩
  · intro hd1
    have hni : ¬ ((pcbNodeTokens bn).filter (fun x => !(S.contains x))).isEmpty = true := by
      simpa [List.isEmpty_iff] using hd1
    rw [hm, if_neg hni, List.count_append]
    by_cases hd2 : (S.filter (fun x => !((pcbNodeTokens bn).contains x))).isEmpty = true
    · rw [if_pos hd2]
      simp
    · rw [if_neg hd2]
      have hne : msgMissing bn.name (String.intercalate ","
            (S.filter (fun x => !((pcbNodeTokens bn).contains x))))
          ≠ msgExtra bn.name (String.intercalate ","
            ((pcbNodeTokens bn).filter (fun x => !(S.contains x)))) :=
        Ne.symm msgExtra_ne_msgMissing
      rw [List.count_singleton_self,
        List.count_eq_zero.mpr (fun hmem => hne (List.mem_singleton.mp hmem).symm)]
  · intro hd2
    have hni : ¬ (S.filter (fun x => !((pcbNodeTokens bn).contains x))).isEmpty = true := by
      simpa [List.isEmpty_iff] using hd2
    rw [hm, if_neg hni, List.count_append]
    by_cases hd1 : ((pcbNodeTokens bn).filter (fun x => !(S.contains x))).isEmpty = true
    · rw [if_pos hd1]
      simp
    · rw [if_neg hd1]
      have hne : msgExtra bn.name (String.intercalate ","
            ((pcbNodeTokens bn).filter (fun x => !(S.contains x))))
          ≠ msgMissing bn.name (String.intercalate ","
            (S.filter (fun x => !((pcbNodeTokens bn).contains x)))) :=
        msgExtra_ne_msgMissing
      rw [List.count_singleton_self,
        List.count_eq_zero.mpr (fun hmem => hne (List.mem_singleton.mp hmem).symm)]
  · intro hiff
    have h1 : (pcbNodeTokens bn).filter (fun x => !(S.contains x)) = [] := by
      rw [List.filter_eq_nil_iff]
      intro a ha
      simp only [Bool.not_eq_true', Bool.not_eq_false]
      exact List.elem_iff.mpr ((hiff a).mp ha)
    have h2 : S.filter (fun x => !((pcbNodeTokens bn).contains x)) = [] := by
      rw [List.filter_eq_nil_iff]
      intro a ha
      simp only [Bool.not_eq_true', Bool.not_eq_false]
      exact List.elem_iff.mpr ((hiff a).mpr ha)
    rw [hm, h1, h2]
    rfl

theorem c2_witness :
    (netMsgs nnGndEx bnGndEx).count
      (msgExtra bnGndEx.name (String.intercalate ","
        ((pcbNodeTokens bnGndEx).filter (fun x => !(schNodesEx.contains x))))) = 1
    ∧ (netMsgs nnGndEx bnGndEx).count
      (msgMissing bnGndEx.name (String.intercalate ","
        (schNodesEx.filter (fun x => !((pcbNodeTokens bnGndEx).contains x))))) = 1
    ∧ netMsgs nnVccEx bnVccEx = [] := by
  obtain ⟨h1, h2, -⟩ := c2_net_endpoint_differences nnGndEx bnGndEx schNodesEx
    (by decide) rfl
  obtain ⟨-, -, h3⟩ := c2_net_endpoint_differences nnVccEx bnVccEx ["R1 pin 2"]
    (by decide) rfl
  exact ⟨h1 (by decide), h2 (by decide), h3 (fun x => Iff.rfl)⟩

/-- C4: the reserved net (netcode 0) is excluded from the board-side net
count (count minus one) and skipped during enumeration before any
comparison; a count mismatch produces exactly one count-mismatch message;
and the per-net messages appear in the output regardless, so the mismatch
does not abort the per-net name and endpoint checks. -/
theorem c4_reserved_net_and_count (nn : NetDict) (b : Board) :
    (∀ bn ∈ b.nets, bn.code = 0 → netMsgs nn bn = [])
    ∧ ((b.nets.filter (fun bn => bn.code == 0)).length = 1 →
        pcbNetCount b = ((b.nets.filter (fun bn => !(bn.code == 0))).length : Int))
    ∧ (pcbNetCount b ≠ (nn.length : Int) →
        (check_nets nn b).count (msgCount (pcbNetCount b) (nn.length : Int)) = 1)
    ∧ (b.nets.flatMap (netMsgs nn)).Sublist (check_nets nn b) := by
  refine ⟨?_, ?_, ?_, ?_⟩
  · intro bn _ h0
    simp [netMsgs, h0]
  · intro h1
    have hsplit := length_filter_split (fun bn => bn.code == 0) b.nets
    unfold pcbNetCount
    rw [h1] at hsplit
    omega
  · intro hne
    have hcm : check_nets nn b =
        [msgCount (pcbNetCount b) (nn.length : Int)]
        ++ b.nets.flatMap (netMsgs nn)
        ++ ((nn.map Prod.fst).filter (fun k => !(inPcbNetNames nn b k))).map
             msgNetNotInPcb := by
      simp [check_nets, hne]
    rw [hcm, List.count_append, List.count_append]
    have hflat : (b.nets.flatMap (netMsgs nn)).count
        (msgCount (pcbNetCount b) (nn.length : Int)) = 0 := by
      rw [List.count_eq_zero]
      intro hmem
      rcases List.mem_flatMap.mp hmem with ⟨bn, -, hx⟩
      rcases netMsgs_shape hx with ⟨s, hs⟩
      exact msgCount_ne_net _ _ _ hs
    have htail : (((nn.map Prod.fst).filter (fun k => !(inPcbNetNames nn b k))).map
        msgNetNotInPcb).count (msgCount (pcbNetCount b) (nn.length : Int)) = 0 := by
      rw [List.count_eq_zero]
      intro hmem
      rcases List.mem_map.mp hmem with ⟨k, -, hk⟩
      exact msgCount_ne_net _ _ _ (hk.symm.trans (msgNetNotInPcb_eq k))
    rw [hflat, htail]
    simp
  · have hs1 := List.sublist_append_right
      (if pcbNetCount b = (nn.length : Int) then []
       else [msgCount (pcbNetCount b) (nn.length : Int)])
      (b.nets.flatMap (netMsgs nn))
    have hs2 := List.sublist_append_left
      ((if pcbNetCount b = (nn.length : Int) then []
        else [msgCount (pcbNetCount b) (nn.length : Int)])
       ++ b.nets.flatMap (netMsgs nn))
      (((nn.map Prod.fst).filter (fun k => !(inPcbNetNames nn b k))).map
        msgNetNotInPcb)
    exact hs1.trans hs2

theorem c4_witness :
    netMsgs nnGndEx netZeroEx = []
    ∧ pcbNetCount boardNetsEx
        = ((boardNetsEx.nets.filter (fun bn => !(bn.code == 0))).length : Int)
    ∧ (check_nets nnGndEx boardNetsEx).count
        (msgCount (pcbNetCount boardNetsEx) (nnGndEx.length : Int)) = 1
    ∧ (boardNetsEx.nets.flatMap (netMsgs nnGndEx)).Sublist
        (check_nets nnGndEx boardNetsEx) := by
  obtain ⟨h1, h2, h3, h4⟩ := c4_reserved_net_and_count nnGndEx boardNetsEx
  exact ⟨h1 netZeroEx (by decide) rfl, h2 (by decide), h3 (by decide), h4⟩


theorem lookup_isSome_of_mem_keys {α β : Type} [BEq α] [LawfulBEq α] {p : α}
    {l : List (α × β)} (h : p ∈ l.map Prod.fst) : (List.lookup p l).isSome := by
  rw [List.lookup_isSome_iff]
  rcases List.mem_map.mp h with ⟨pair, hp, he⟩
  exact ⟨pair, hp, beq_iff_eq.mpr he.symm⟩

theorem not_mem_keys_of_lookup_none {α β : Type} [BEq α] [LawfulBEq α] {p : α}
    {l : List (α × β)} (h : List.lookup p l = none) : p ∉ l.map Prod.fst := by
  intro hm
  have hs := lookup_isSome_of_mem_keys hm
  rw [h] at hs
  simp at hs

/-- C1: a board component whose reference is absent from the schematic map
contributes exactly one "found in PCB, but not in schematic" message and no
footprint, value, or property message; and a schematic reference never
encountered among the board references yields exactly one
"found in schematic, but not in PCB" message, emitted after the per-board
messages. -/
theorem c1_components_only_on_one_side (comps : CompDict) (modules : List Module)
    (m : Module) (r : String)
    (hkeys : ∀ k ∈ comps.map Prod.fst, k ≠ none) :
    (List.lookup (some m.ref) comps = none → compMsgs comps m = [msgPcbOnly m.ref])
    ∧ (some r ∈ comps.map Prod.fst → (∀ mo ∈ modules, mo.ref ≠ r) →
        (check_components comps modules).count (msgSchOnly (some r)) = 1) := by
  constructor
  · intro hl
    simp [compMsgs, hl]
  · intro hr hnot
    unfold check_components
    rw [List.count_append]
    have hA : (modules.flatMap (compMsgs comps)).count (msgSchOnly (some r)) = 0 := by
      rw [List.count_eq_zero]
      intro hmem
      rcases List.mem_flatMap.mp hmem with ⟨mo, -, hx⟩
      exact compMsgs_ne_schOnly hx r rfl
    rw [hA]
    have hmemL : some r ∈ (pydedup (comps.map Prod.fst)).filter
        (fun k => !(modules.any (fun mo => some mo.ref == k))) := by
      rw [List.mem_filter]
      refine ⟨mem_pydedup.mpr hr, ?_⟩
      rw [Bool.not_eq_true', List.any_eq_false]
      intro mo hmo
      simp only [beq_iff_eq, Option.some.injEq]
      exact hnot mo hmo
    have hndL : ((pydedup (comps.map Prod.fst)).filter
        (fun k => !(modules.any (fun mo => some mo.ref == k)))).Nodup :=
      (nodup_pydedup _).filter _
    have hinj : ∀ k ∈ (pydedup (comps.map Prod.fst)).filter
        (fun k => !(modules.any (fun mo => some mo.ref == k))),
        msgSchOnly k = msgSchOnly (some r) → k = some r := by
      intro k hk he
      have hkmem : k ∈ comps.map Prod.fst :=
        mem_pydedup.mp (List.mem_filter.mp hk).1
      cases k with
      | none => exact absurd rfl (hkeys none hkmem)
      | some s => exact congrArg some (msgSchOnly_some_inj he)
    simpa using count_map_eq_one _ hndL hmemL hinj

theorem c1_witness :
    compMsgs compsEx modC5Ex = [msgPcbOnly "C5"]
    ∧ (check_components compsEx [modR1Ex]).count (msgSchOnly (some "R9")) = 1 := by
  obtain ⟨h1, h2⟩ := c1_components_only_on_one_side compsEx [modR1Ex] modC5Ex "R9"
    (by decide)
  exact ⟨h1 rfl, h2 (by decide) (by decide)⟩

theorem msgSchProp_mem_propLoop {r p : String}
    {sp : List (Option String × Option String)} {pp : List (String × String)}
    (hkeys : ∀ k ∈ sp.map Prod.fst, k ≠ none)
    (h : msgSchProp r p ∈ propLoopMsgs r sp pp) :
    some p ∈ sp.map Prod.fst ∧ List.lookup p pp = none := by
  unfold propLoopMsgs at h
  rcases List.mem_flatMap.mp h with ⟨pv, hpv, hx⟩
  cases hpg : propGet pv.1 pp with
  | none =>
    simp only [hpg] at hx
    simp only [List.mem_singleton] at hx
    have hkey : pv.1 ≠ none := hkeys pv.1 (List.mem_map.mpr ⟨pv, hpv, rfl⟩)
    cases hpv1 : pv.1 with
    | none => exact absurd hpv1 hkey
    | some s =>
      rw [hpv1] at hx
      have hps : p = s := by
        have := msgSchProp_inj hx
        simpa [optFormat] using this
      constructor
      · refine List.mem_map.mpr ⟨pv, hpv, ?_⟩
        rw [hpv1]
        exact congrArg some hps.symm
      · rw [hpv1] at hpg
        simp only [propGet] at hpg
        rw [hps]
        exact hpg
  | some vpcb =>
    simp only [hpg] at hx
    exact absurd (mem_ite_nil hx).symm (ne_mismatch_schProp _ _ _ _ _)

theorem msgPcbProp_not_mem_propLoop {r p : String}
    {sp : List (Option String × Option String)} {pp : List (String × String)} :
    msgPcbProp r p ∉ propLoopMsgs r sp pp := by
  intro h
  unfold propLoopMsgs at h
  rcases List.mem_flatMap.mp h with ⟨pv, -, hx⟩
  cases hpg : propGet pv.1 pp with
  | none =>
    simp only [hpg] at hx
    simp only [List.mem_singleton] at hx
    exact absurd hx.symm (ne_schProp_pcbProp _ _ _ _)
  | some vpcb =>
    simp only [hpg] at hx
    exact absurd (mem_ite_nil hx).symm (ne_mismatch_pcbProp _ _ _ _ _)

theorem msgPcbProp_mem_missing {r p : String}
    {sp : List (Option String × Option String)} {pp : List (String × String)}
    (h : msgPcbProp r p ∈ missingPropMsgs r sp pp) :
    p ∈ pp.map Prod.fst ∧ (foundProps sp pp).contains (some p) = false := by
  unfold missingPropMsgs at h
  rcases List.mem_map.mp h with ⟨k, hk, hke⟩
  have hkp : k = p := msgPcbProp_inj hke
  rw [hkp] at hk
  rcases List.mem_filter.mp hk with ⟨hk1, hk2⟩
  rw [Bool.not_eq_true'] at hk2
  exact ⟨mem_pydedup.mp hk1, hk2⟩

theorem msgSchProp_not_mem_missing {r p : String}
    {sp : List (Option String × Option String)} {pp : List (String × String)} :
    msgSchProp r p ∉ missingPropMsgs r sp pp := by
  intro h
  unfold missingPropMsgs at h
  rcases List.mem_map.mp h with ⟨k, -, hke⟩
  exact absurd hke.symm (ne_schProp_pcbProp _ _ _ _)

/-- C9: for a board component found in the schematic, a property key
present on both sides is recorded as found before comparison, so it is
never additionally reported as "PCB property not in schematic" (nor as
"schematic property not in PCB"); the two not-in messages are mutually
exclusive for the same key; and a key present on both sides with differing
values is reported as a property mismatch. -/
theorem c9_property_messages_exclusive (comps : CompDict) (m : Module)
    (sch : Component) (p : String)
    (hl : List.lookup (some m.ref) comps = some sch)
    (hkeys : ∀ k ∈ sch.props.map Prod.fst, k ≠ none) :
    (some p ∈ sch.props.map Prod.fst → p ∈ m.props.map Prod.fst →
        msgPcbProp m.ref p ∉ compMsgs comps m
      ∧ msgSchProp m.ref p ∉ compMsgs comps m)
    ∧ ¬(msgSchProp m.ref p ∈ compMsgs comps m ∧ msgPcbProp m.ref p ∈ compMsgs comps m)
    ∧ (∀ v vpcb, (some p, v) ∈ sch.props → List.lookup p m.props = some vpcb →
        v ≠ some vpcb →
        msgPropMismatch m.ref vpcb (optFormat v) ∈ compMsgs comps m) := by
  have hcm : compMsgs comps m =
      (if sch.fp = some m.fp then [] else [msgFpMismatch m.ref m.fp (optFormat sch.fp)])
      ++ (if sch.val = some m.val then [] else [msgValMismatch m.ref m.val (optFormat sch.val)])
      ++ propLoopMsgs m.ref sch.props m.props
      ++ missingPropMsgs m.ref sch.props m.props := by
    simp [compMsgs, hl]
  refine ⟨?_, ?_, ?_⟩
  · intro hsp hpp
    constructor
    · rw [hcm]
      intro hmem
      rcases List.mem_append.mp hmem with h1 | hM
      · rcases List.mem_append.mp h1 with h2 | hP
        · rcases List.mem_append.mp h2 with hF | hV
          · exact absurd (mem_ite_nil hF).symm (ne_fpMismatch_pcbProp _ _ _ _ _)
          · exact absurd (mem_ite_nil hV).symm (ne_valMismatch_pcbProp _ _ _ _ _)
        · exact msgPcbProp_not_mem_propLoop hP
      · rcases msgPcbProp_mem_missing hM with ⟨-, hcontains⟩
        have hct : (foundProps sch.props m.props).contains (some p) = true := by
          refine List.elem_iff.mpr ?_
          unfold foundProps
          rw [List.mem_filter]
          refine ⟨hsp, ?_⟩
          simp only [propGet]
          exact lookup_isSome_of_mem_keys hpp
        rw [hct] at hcontains
        simp at hcontains
    · rw [hcm]
      intro hmem
      rcases List.mem_append.mp hmem with h1 | hM
      · rcases List.mem_append.mp h1 with h2 | hP
        · rcases List.mem_append.mp h2 with hF | hV
          · exact absurd (mem_ite_nil hF).symm (ne_fpMismatch_schProp _ _ _ _ _)
          · exact absurd (mem_ite_nil hV).symm (ne_valMismatch_schProp _ _ _ _ _)
        · have hnone := (msgSchProp_mem_propLoop hkeys hP).2
          have hs := lookup_isSome_of_mem_keys (p := p) (l := m.props) hpp
          rw [hnone] at hs
          simp at hs
      · exact msgSchProp_not_mem_missing hM
  · rintro ⟨hS, hP⟩
    rw [hcm] at hS hP
    have hSl : List.lookup p m.props = none := by
      rcases List.mem_append.mp hS with h1 | hM
      · rcases List.mem_append.mp h1 with h2 | hPl
        · rcases List.mem_append.mp h2 with hF | hV
          · exact absurd (mem_ite_nil hF).symm (ne_fpMismatch_schProp _ _ _ _ _)
          · exact absurd (mem_ite_nil hV).symm (ne_valMismatch_schProp _ _ _ _ _)
        · exact (msgSchProp_mem_propLoop hkeys hPl).2
      · exact absurd hM msgSchProp_not_mem_missing
    have hPk : p ∈ m.props.map Prod.fst := by
      rcases List.mem_append.mp hP with h1 | hM
      · rcases List.mem_append.mp h1 with h2 | hPl
        · rcases List.mem_append.mp h2 with hF | hV
          · exact absurd (mem_ite_nil hF).symm (ne_fpMismatch_pcbProp _ _ _ _ _)
          · exact absurd (mem_ite_nil hV).symm (ne_valMismatch_pcbProp _ _ _ _ _)
        · exact absurd hPl msgPcbProp_not_mem_propLoop
      · exact (msgPcbProp_mem_missing hM).1
    exact absurd hPk (not_mem_keys_of_lookup_none hSl)
  · intro v vpcb hmem hlv hne
    rw [hcm]
    apply List.mem_append.mpr
    refine Or.inl ?_
    apply List.mem_append.mpr
    refine Or.inr ?_
    unfold propLoopMsgs
    apply List.mem_flatMap.mpr
    refine ⟨(some p, v), hmem, ?_⟩
    have hpg : propGet (some p, v).1 m.props = some vpcb := by
      simp only [propGet]
      exact hlv
    simp only [hpg]
    simp [hne]

theorem c9_witness :
    (msgPcbProp "R1" "P" ∉ compMsgs compsEx modR1MismEx
      ∧ msgSchProp "R1" "P" ∉ compMsgs compsEx modR1MismEx)
    ∧ ¬(msgSchProp "R1" "P" ∈ compMsgs compsEx modR1MismEx
        ∧ msgPcbProp "R1" "P" ∈ compMsgs compsEx modR1MismEx)
    ∧ msgPropMismatch "R1" "2" (optFormat (some "1")) ∈ compMsgs compsEx modR1MismEx := by
  obtain ⟨h1, h2, h3⟩ := c9_property_messages_exclusive compsEx modR1MismEx compEx "P"
    rfl (by decide)
  exact ⟨h1 (by decide) (by decide), h2, h3 (some "1") "2" (by decide) rfl (by decide)⟩

end KiBot
